import Mathlib

/-!
Shallow embedding of the notion-agent backend
(`src/backend/notion_client_wrapper.py` and `src/backend/app.py`).

External collaborators (the Notion workspace API, the OpenAI embedding
service, and the ASI:1 reasoning service) are modelled as oracles passed
to the embedded functions; a fallible remote call is an `Option`-valued
oracle where `none` stands for a raised exception.  Python floats are
idealised as real numbers.  Functions that may raise return `Option`
results, with `none` meaning the exception propagates to the caller.
Where a function performs remote side effects, it additionally returns
the trace of those calls (embedding-service texts, workspace operations,
outbound chat messages), so "performs no call" is provable.
-/

namespace NotionAgent

/-- A flattened Notion page record, as produced by `_extract_pages`. -/
structure Page where
  id : String
  title : String
  url : String
  last_edited : String
  created : String

/-- The in-memory embedding cache `self._cache : dict[str, (title, embedding)]`,
modelled as an association list with unique keys (a Python dict). -/
def Cache : Type := List (String × (String × List ℝ))

/-- Lookup in a string-keyed dict (association list). -/
def dictLookup {β : Type _} : List (String × β) → String → Option β
  | [], _ => none
  | e :: es, k => if e.1 = k then some e.2 else dictLookup es k

/-- `self._cache[page_id]` / `page_id in self._cache`. -/
def cacheGet (c : Cache) (k : String) : Option (String × List ℝ) :=
  dictLookup c k

/-- `self._cache[page_id] = (title, embedding)` — dict assignment
(overwrites an existing key, otherwise inserts). -/
def cachePut : Cache → String → String → List ℝ → Cache
  | [], k, t, v => [(k, (t, v))]
  | e :: es, k, t, v => if e.1 = k then (k, (t, v)) :: es else e :: cachePut es k t v

/-- `self._cache.pop(page_id, None)` — removes the key if present. -/
def cacheErase (c : Cache) (k : String) : Cache :=
  c.filter (fun e => decide (e.1 ≠ k))

/-- Sum of squares of a vector, `sum(x * x for x in a)`. -/
def sumSq (a : List ℝ) : ℝ := (a.map (fun x => x * x)).sum

/-- `_cosine_similarity(a, b)` from `notion_client_wrapper.py`:
dot product over `zip(a, b)`, norms via `** 0.5` (= `Real.sqrt`, the
arguments being sums of squares, hence nonnegative), with the
division guarded by the zero-norm check. -/
noncomputable def _cosine_similarity (a b : List ℝ) : ℝ :=
  if Real.sqrt (sumSq a) = 0 ∨ Real.sqrt (sumSq b) = 0 then 0
  else (List.zipWith (fun x y => x * y) a b).sum / (Real.sqrt (sumSq a) * Real.sqrt (sumSq b))

/-- The comparison realised by `scored.sort(key=lambda x: x[0], reverse=True)`:
descending by score.  Python `list.sort` is stable; a stable sort is uniquely
determined by its comparison, so `List.insertionSort` with this relation is
the embedding of that call. -/
def scoreGe (a b : ℝ × Page) : Prop := b.1 ≤ a.1

noncomputable instance : DecidableRel scoreGe :=
  fun a b => inferInstanceAs (Decidable (b.1 ≤ a.1))

instance : IsTotal (ℝ × Page) scoreGe := ⟨fun a b => le_total b.1 a.1⟩

instance : IsTrans (ℝ × Page) scoreGe := ⟨fun _ _ _ hab hbc => le_trans hbc hab⟩

/-- `scored.sort(key=lambda x: x[0], reverse=True)` — stable descending sort. -/
noncomputable def sortDesc (l : List (ℝ × Page)) : List (ℝ × Page) :=
  l.insertionSort scoreGe

/-- Python `str.strip()` (as used in `query.strip()` and `text.strip()`),
modelled on the character list: drop leading and trailing whitespace. -/
def pyStrip (s : String) : String :=
  String.mk (((s.data.dropWhile Char.isWhitespace).reverse.dropWhile
    Char.isWhitespace).reverse)

/-- Python list slicing `l[:n]` for an `int` bound (a negative bound counts
from the end of the list). -/
def pySlice {α : Type _} (n : Int) (l : List α) : List α :=
  if 0 ≤ n then l.take n.toNat else l.take (l.length - n.natAbs)

/-- The title-embedding loop of `search_notes` (lines 80–92): for each page,
reuse the cached embedding when the cached title still matches, otherwise call
the embedding service (`none` = the call raised, and the exception propagates)
and store the result in the cache.  Returns the texts sent to the embedding
service (in call order), and on success the scored list plus the final cache. -/
noncomputable def scoreLoop (emb : String → Option (List ℝ)) (query_embedding : List ℝ) :
    List Page → Cache → List String × Option (List (ℝ × Page) × Cache)
  | [], cache => ([], some ([], cache))
  | page :: rest, cache =>
    match cacheGet cache page.id with
    | some entry =>
      if entry.1 = page.title then
        match scoreLoop emb query_embedding rest cache with
        | (tr, none) => (tr, none)
        | (tr, some (scored, c')) =>
          (tr, some ((_cosine_similarity query_embedding entry.2, page) :: scored, c'))
      else
        match emb page.title with
        | none => ([page.title], none)
        | some v =>
          match scoreLoop emb query_embedding rest (cachePut cache page.id page.title v) with
          | (tr, none) => (page.title :: tr, none)
          | (tr, some (scored, c')) =>
            (page.title :: tr, some ((_cosine_similarity query_embedding v, page) :: scored, c'))
    | none =>
      match emb page.title with
      | none => ([page.title], none)
      | some v =>
        match scoreLoop emb query_embedding rest (cachePut cache page.id page.title v) with
        | (tr, none) => (page.title :: tr, none)
        | (tr, some (scored, c')) =>
          (page.title :: tr, some ((_cosine_similarity query_embedding v, page) :: scored, c'))

/-- `search_notes(query, limit)`.  `fetch` is the outcome of
`_fetch_all_pages()` (`none` = the workspace fetch raised); `emb` is the
embedding service.  Returns the texts sent to the embedding service and, on
success, the result list plus the updated cache; a `none` second component
means the call raised.  Mirrors the source order: fetch, empty-page check,
blank-query check, query embedding, title-scoring loop, stable descending
sort, `scored[:limit]` slice, strict `> 0.3` filter. -/
noncomputable def search_notes (fetch : Option (List Page))
    (emb : String → Option (List ℝ)) (cache : Cache)
    (query : String) (limit : Int) :
    List String × Option (List Page × Cache) :=
  match fetch with
  | none => ([], none)
  | some all_pages =>
    if all_pages.isEmpty then ([], some ([], cache))
    else if pyStrip query = "" then ([], some (pySlice limit all_pages, cache))
    else
      match emb query with
      | none => ([query], none)
      | some query_embedding =>
        match scoreLoop emb query_embedding all_pages cache with
        | (tr, none) => (query :: tr, none)
        | (tr, some (scored, c')) =>
          (query :: tr,
           some (((pySlice limit (sortDesc scored)).filter
                    (fun x => decide ((0.3:ℝ) < x.1))).map Prod.snd, c'))

/-- `list_recent_notes(limit)` — exactly the query-less `search_notes`. -/
noncomputable def list_recent_notes (fetch : Option (List Page))
    (emb : String → Option (List ℝ)) (cache : Cache) (limit : Int) :
    List String × Option (List Page × Cache) :=
  search_notes fetch emb cache "" limit

/-- Workspace (Notion API) operations a handler may perform. -/
inductive WsOp
  | fetchPages
  | searchProbe
  | getBlocks (pageId : String)
  | createPage
  | appendBlock (pageId : String)
  | appendTodoBlock (pageId : String)
  | updateArchived (pageId : String)

/-- `archive_page(page_id)`: remote archive update (`upd`, `none` = raised),
then `self._cache.pop(page_id, None)`, then `return True`. -/
def archive_page (upd : String → Option Unit) (cache : Cache) (page_id : String) :
    List WsOp × Option (Cache × Bool) :=
  match upd page_id with
  | none => ([WsOp.updateArchived page_id], none)
  | some _ => ([WsOp.updateArchived page_id], some (cacheErase cache page_id, true))

/-- A parsed JSON value, as produced by `json.loads` /
`requests.Response.json()`.  Numbers are idealised as integers (no claim
depends on fractional JSON numbers); objects are association lists with
unique keys. -/
inductive JVal
  | str (s : String)
  | num (n : Int)
  | bool (b : Bool)
  | null
  | arr (elems : List JVal)
  | obj (fields : List (String × JVal))

/-- Python truthiness of a JSON value (`if not title: ...`). -/
def jFalsy : JVal → Bool
  | JVal.str s => s = ""
  | JVal.num n => n = 0
  | JVal.bool b => !b
  | JVal.null => true
  | JVal.arr l => l.isEmpty
  | JVal.obj fs => fs.isEmpty

/-- Python `str()` rendering of a JSON value as used by f-string
interpolation; exact for the string values the handlers actually feed it. -/
def jText : JVal → String
  | JVal.str s => s
  | JVal.num n => toString n
  | JVal.bool b => cond b "True" "False"
  | JVal.null => "None"
  | JVal.arr _ => "[...]"
  | JVal.obj _ => "{...}"

/-- Python `d.get(key, default)`: raises (`none`) when the receiver is not a
dict, otherwise the stored value or the default. -/
def jGetD (j : JVal) (k : String) (d : JVal) : Option JVal :=
  match j with
  | JVal.obj fs => some ((dictLookup fs k).getD d)
  | _ => none

/-- Python `int(value)` as applied to a classifier-supplied JSON value:
ints pass through, bools coerce, numeric strings parse, anything else
raises. -/
def jToInt : JVal → Option Int
  | JVal.num n => some n
  | JVal.bool b => some (cond b 1 0)
  | JVal.str s => s.toInt?
  | _ => none

/-- The external world a handler runs against: the memoized
`_ensure_notion()` outcome and the remote services, each fallible. -/
structure HandlerEnv where
  ensure : Option String
  testConn : Bool
  fetch : Option (List Page)
  emb : String → Option (List ℝ)
  getBlocks : String → Option String
  create : JVal → JVal → Except String (String × String)
  appendBlock : String → JVal → Option Unit
  appendTodo : String → JVal → Option Unit
  archiveUpd : String → Option Unit
  asiGeneral : String → Option String
  asiClassify : String → Option JVal

/-- The default classification `{"intent": "general_query", "params": {}}`. -/
def default_classification : JVal :=
  JVal.obj [("intent", JVal.str "general_query"), ("params", JVal.obj [])]

/-- `classify_intent(user_text)`: the whole remote interaction (POST to
ASI:1, response-field access, optional code-fence stripping, `json.loads`)
sits inside one `try` and is modelled as the oracle `asi`, with `none`
standing for any exception in that chain; the `except` branch returns the
default classification.  A successfully parsed JSON value is returned
unchanged. -/
def classify_intent (asi : String → Option JVal) (user_text : String) : JVal :=
  match asi user_text with
  | some parsed => parsed
  | none => default_classification

/-- `_format_notes(notes)`: one `- **title**` line per note, with the
`last_edited` timestamp truncated to its first 10 characters when present. -/
def _format_notes (notes : List Page) : String :=
  String.intercalate "\n"
    (notes.map (fun n =>
      let edited := if n.last_edited ≠ "" then n.last_edited.take 10 else ""
      let line := "- **" ++ n.title ++ "**"
      if edited ≠ "" then line ++ " (edited " ++ edited ++ ")" else line))

/-- `handle_connect_notion(ctx)`. -/
def handle_connect_notion (env : HandlerEnv) (cache : Cache) :
    List WsOp × Option (String × Cache) :=
  match env.ensure with
  | some err => ([], some (err, cache))
  | none =>
    ([WsOp.searchProbe],
     some ((if env.testConn then "Notion connection successful!"
            else "Failed to connect to Notion. Check your API key."), cache))

/-- `handle_search_notes(ctx, params)`. -/
noncomputable def handle_search_notes (env : HandlerEnv) (cache : Cache) (params : JVal) :
    List WsOp × Option (String × Cache) :=
  match env.ensure with
  | some err => ([], some (err, cache))
  | none =>
  match jGetD params "query" (JVal.str "") with
  | none => ([], none)
  | some queryJ =>
  match jGetD params "limit" (JVal.num 5) with
  | none => ([], none)
  | some limitJ =>
  match jToInt limitJ with
  | none => ([], none)
  | some limit =>
  match queryJ with
  | JVal.str query =>
    match (search_notes env.fetch env.emb cache query limit).2 with
    | none => ([WsOp.fetchPages], none)
    | some (notes, c') =>
      if notes.isEmpty then
        ([WsOp.fetchPages], some ("No notes found matching \x22" ++ query ++ "\x22.", c'))
      else ([WsOp.fetchPages], some (_format_notes notes, c'))
  | _ => ([WsOp.fetchPages], none)

/-- `handle_list_notes(ctx, params)`. -/
noncomputable def handle_list_notes (env : HandlerEnv) (cache : Cache) (params : JVal) :
    List WsOp × Option (String × Cache) :=
  match env.ensure with
  | some err => ([], some (err, cache))
  | none =>
  match jGetD params "limit" (JVal.num 5) with
  | none => ([], none)
  | some limitJ =>
  match jToInt limitJ with
  | none => ([], none)
  | some limit =>
    match (list_recent_notes env.fetch env.emb cache limit).2 with
    | none => ([WsOp.fetchPages], none)
    | some (notes, c') =>
      if notes.isEmpty then
        ([WsOp.fetchPages], some ("No notes found in your Notion workspace.", c'))
      else ([WsOp.fetchPages], some (_format_notes notes, c'))

/-- `handle_read_note(ctx, params)`. -/
noncomputable def handle_read_note (env : HandlerEnv) (cache : Cache) (params : JVal) :
    List WsOp × Option (String × Cache) :=
  match env.ensure with
  | some err => ([], some (err, cache))
  | none =>
  match jGetD params "title" (JVal.str "") with
  | none => ([], none)
  | some titleJ =>
  match titleJ with
  | JVal.str title =>
    match (search_notes env.fetch env.emb cache title 1).2 with
    | none => ([WsOp.fetchPages], none)
    | some (notes, c') =>
      match notes with
      | [] => ([WsOp.fetchPages],
               some ("Couldn\x27t find a note titled \x22" ++ title ++ "\x22.", c'))
      | n :: _ =>
        match env.getBlocks n.id with
        | none => ([WsOp.fetchPages, WsOp.getBlocks n.id], none)
        | some content =>
          ([WsOp.fetchPages, WsOp.getBlocks n.id],
           some ((if content ≠ "" then "**" ++ n.title ++ "**\n" ++ content
                  else "**" ++ n.title ++ "**\n" ++ "(This page has no text content.)"), c'))
  | _ => ([WsOp.fetchPages], none)

/-- `handle_create_note(ctx, params)` — the only handler with its own
`try/except` around the workspace call. -/
def handle_create_note (env : HandlerEnv) (cache : Cache) (params : JVal) :
    List WsOp × Option (String × Cache) :=
  match env.ensure with
  | some err => ([], some (err, cache))
  | none =>
  match jGetD params "title" (JVal.str "Untitled") with
  | none => ([], none)
  | some titleJ =>
  match jGetD params "content" (JVal.str "") with
  | none => ([], none)
  | some contentJ =>
  match env.create titleJ contentJ with
  | Except.error e =>
    ([WsOp.createPage], some ("Failed to create note: " ++ e, cache))
  | Except.ok (newId, url) =>
    ([WsOp.createPage],
     some ("Created note **" ++ jText titleJ ++ "**\n" ++ url, cacheErase cache newId))

/-- `handle_append_note(ctx, params)`. -/
noncomputable def handle_append_note (env : HandlerEnv) (cache : Cache) (params : JVal) :
    List WsOp × Option (String × Cache) :=
  match env.ensure with
  | some err => ([], some (err, cache))
  | none =>
  match jGetD params "title" (JVal.str "") with
  | none => ([], none)
  | some titleJ =>
  match jGetD params "text" (JVal.str "") with
  | none => ([], none)
  | some textJ =>
  if jFalsy titleJ ∨ jFalsy textJ then
    ([], some ("I need both a note title and the text to append.", cache))
  else
  match titleJ with
  | JVal.str title =>
    match (search_notes env.fetch env.emb cache title 1).2 with
    | none => ([WsOp.fetchPages], none)
    | some (notes, c') =>
      match notes with
      | [] => ([WsOp.fetchPages],
               some ("Couldn\x27t find a note titled \x22" ++ title ++ "\x22.", c'))
      | n :: _ =>
        match env.appendBlock n.id textJ with
        | none => ([WsOp.fetchPages, WsOp.appendBlock n.id], none)
        | some _ =>
          ([WsOp.fetchPages, WsOp.appendBlock n.id],
           some ("Added text to **" ++ n.title ++ "**.", c'))
  | _ => ([WsOp.fetchPages], none)

/-- `handle_add_todo(ctx, params)`. -/
noncomputable def handle_add_todo (env : HandlerEnv) (cache : Cache) (params : JVal) :
    List WsOp × Option (String × Cache) :=
  match env.ensure with
  | some err => ([], some (err, cache))
  | none =>
  match jGetD params "title" (JVal.str "") with
  | none => ([], none)
  | some titleJ =>
  match jGetD params "task" (JVal.str "") with
  | none => ([], none)
  | some taskJ =>
  if jFalsy titleJ ∨ jFalsy taskJ then
    ([], some ("I need both a note title and the task text.", cache))
  else
  match titleJ with
  | JVal.str title =>
    match (search_notes env.fetch env.emb cache title 1).2 with
    | none => ([WsOp.fetchPages], none)
    | some (notes, c') =>
      match notes with
      | [] => ([WsOp.fetchPages],
               some ("Couldn\x27t find a note titled \x22" ++ title ++ "\x22.", c'))
      | n :: _ =>
        match env.appendTodo n.id taskJ with
        | none => ([WsOp.fetchPages, WsOp.appendTodoBlock n.id], none)
        | some _ =>
          ([WsOp.fetchPages, WsOp.appendTodoBlock n.id],
           some ("Added to-do \x22**" ++ jText taskJ ++ "**\x22 to **" ++ n.title ++ "**.", c'))
  | _ => ([WsOp.fetchPages], none)

/-- `handle_archive_note(ctx, params)`. -/
noncomputable def handle_archive_note (env : HandlerEnv) (cache : Cache) (params : JVal) :
    List WsOp × Option (String × Cache) :=
  match env.ensure with
  | some err => ([], some (err, cache))
  | none =>
  match jGetD params "title" (JVal.str "") with
  | none => ([], none)
  | some titleJ =>
  if jFalsy titleJ then
    ([], some ("I need the title of the note to archive.", cache))
  else
  match titleJ with
  | JVal.str title =>
    match (search_notes env.fetch env.emb cache title 1).2 with
    | none => ([WsOp.fetchPages], none)
    | some (notes, c') =>
      match notes with
      | [] => ([WsOp.fetchPages],
               some ("Couldn\x27t find a note titled \x22" ++ title ++ "\x22.", c'))
      | n :: _ =>
        match archive_page env.archiveUpd c' n.id with
        | (ops, none) => ([WsOp.fetchPages] ++ ops, none)
        | (ops, some (c'', _)) =>
          ([WsOp.fetchPages] ++ ops, some ("Archived **" ++ n.title ++ "**.", c''))
  | _ => ([WsOp.fetchPages], none)

/-- `handle_general_query(user_text)`: the whole remote call sits inside a
`try`; any failure yields the fixed apology. -/
def handle_general_query (env : HandlerEnv) (cache : Cache) (user_text : String) :
    List WsOp × Option (String × Cache) :=
  match env.asiGeneral user_text with
  | some answer => ([], some (answer, cache))
  | none => ([], some ("Sorry, I wasn\x27t able to process that.", cache))

/-- The common shape of the lambdas stored in `INTENT_HANDLERS`. -/
def Handler : Type :=
  HandlerEnv → Cache → JVal → String → List WsOp × Option (String × Cache)

/-- The `INTENT_HANDLERS` dict literal: nine intents, each dispatching to its
handler with the arguments the source lambdas select. -/
noncomputable def INTENT_HANDLERS : List (String × Handler) :=
  [("connect_notion", fun env c _ _ => handle_connect_notion env c),
   ("search_notes", fun env c p _ => handle_search_notes env c p),
   ("list_notes", fun env c p _ => handle_list_notes env c p),
   ("read_note", fun env c p _ => handle_read_note env c p),
   ("create_note", fun env c p _ => handle_create_note env c p),
   ("append_note", fun env c p _ => handle_append_note env c p),
   ("add_todo", fun env c p _ => handle_add_todo env c p),
   ("archive_note", fun env c p _ => handle_archive_note env c p),
   ("general_query", fun env c _ t => handle_general_query env c t)]

/-- `INTENT_HANDLERS.get(intent, INTENT_HANDLERS["general_query"])`: a string
key falls back to the general-query entry when absent; a hashable non-string
key (number, bool, null) is simply absent, hence also the fallback; an
unhashable key (list or dict) makes `dict.get` raise `TypeError` (`none`). -/
noncomputable def lookupHandler : JVal → Option Handler
  | JVal.str s =>
    some ((dictLookup INTENT_HANDLERS s).getD
      (fun env c _ t => handle_general_query env c t))
  | JVal.arr _ => none
  | JVal.obj _ => none
  | _ => some (fun env c _ t => handle_general_query env c t)

/-- A content item of an inbound `ChatMessage`. -/
inductive ContentItem
  | text (t : String)
  | other

/-- Messages the session handler sends back. -/
inductive OutMsg
  | ack
  | reply (text : String)

/-- The text-extraction loop of `handle_message`: concatenate the text of
every `TextContent` item in order. -/
def extractText : List ContentItem → String
  | [] => ""
  | ContentItem.text t :: rest => t ++ extractText rest
  | ContentItem.other :: rest => extractText rest

/-- `handle_message(ctx, sender, msg)`: unconditional acknowledgement, text
extraction, blank-text short-circuit, classification, `result.get` field
access (raises on a non-dict classification result), handler lookup,
dispatch, and the single reply.  There is no `try/except` in this function:
a `none` from field access, lookup or the handler propagates, and the
returned message list shows what was sent before the exception. -/
noncomputable def handle_message (env : HandlerEnv) (cache : Cache)
    (content : List ContentItem) : List OutMsg × Option Cache :=
  if pyStrip (extractText content) = "" then
    ([OutMsg.ack, OutMsg.reply "I didn\x27t receive any text. Please send me a message!"],
     some cache)
  else
    match jGetD (classify_intent env.asiClassify (extractText content)) "intent"
        (JVal.str "general_query") with
    | none => ([OutMsg.ack], none)
    | some intentJ =>
      match jGetD (classify_intent env.asiClassify (extractText content)) "params"
          (JVal.obj []) with
      | none => ([OutMsg.ack], none)
      | some paramsJ =>
        match lookupHandler intentJ with
        | none => ([OutMsg.ack], none)
        | some h =>
          match (h env cache paramsJ (extractText content)).2 with
          | none => ([OutMsg.ack], none)
          | some (response_text, c') =>
            ([OutMsg.ack, OutMsg.reply response_text], some c')

/-- A concrete page used by witnesses and counterexamples. -/
def pageA : Page := ⟨"id-a", "Alpha", "https://a", "2024-01-02T00:00:00Z", "2024-01-01T00:00:00Z"⟩

/-- A second concrete page used by witnesses and counterexamples. -/
def pageB : Page := ⟨"id-b", "Beta", "https://b", "2024-01-01T00:00:00Z", "2024-01-01T00:00:00Z"⟩

/-- Embedding oracle for witnesses: the query "q" embeds to `[1]`, every
other text to `[0]`. -/
noncomputable def embW : String → Option (List ℝ) :=
  fun t => if t = "q" then some [(1:ℝ)] else some [(0:ℝ)]

/-- Embedding oracle for the C4 counterexample: the query "q" embeds fine,
every document title fails. -/
noncomputable def embC4 : String → Option (List ℝ) :=
  fun t => if t = "q" then some [(1:ℝ)] else none

/-- A fully healthy environment for witnesses: Notion configured, one page
fetched, every remote call succeeds, classification always fails over to the
default. -/
noncomputable def envW : HandlerEnv :=
  ⟨none, true, some [pageA], embW, fun _ => some "", fun _ _ => Except.error "boom",
   fun _ _ => some (), fun _ _ => some (), fun _ => some (), fun _ => some "ok",
   fun _ => none⟩

/-- Environment for the C1 counterexample: classification yields the
`search_notes` intent, but the workspace fetch raises inside the dispatched
handler. -/
noncomputable def envC1 : HandlerEnv :=
  ⟨none, true, none, embW, fun _ => some "", fun _ _ => Except.error "boom",
   fun _ _ => some (), fun _ _ => some (), fun _ => some (), fun _ => some "ok",
   fun _ => some (JVal.obj [("intent", JVal.str "search_notes"), ("params", JVal.obj [])])⟩

theorem sumSq_nonneg (a : List ℝ) : 0 ≤ sumSq a := by
  induction a with
  | nil => simp [sumSq]
  | cons x xs ih =>
    simp only [sumSq, List.map_cons, List.sum_cons]
    have hx : 0 ≤ x * x := mul_self_nonneg x
    have : 0 ≤ (xs.map (fun x => x * x)).sum := ih
    linarith

/-- Cauchy–Schwarz for the truncating (`zip`-style) dot product. -/
theorem zip_dot_sq_le (a b : List ℝ) :
    ((List.zipWith (fun x y => x * y) a b).sum) ^ 2 ≤ sumSq a * sumSq b := by
  induction a generalizing b with
  | nil =>
    simp [sumSq]
  | cons x xs ih =>
    cases b with
    | nil =>
      simp [sumSq]
    | cons y ys =>
      have hA : 0 ≤ sumSq xs := sumSq_nonneg xs
      have hB : 0 ≤ sumSq ys := sumSq_nonneg ys
      have hd := ih ys
      simp only [List.zipWith_cons_cons, List.sum_cons, sumSq, List.map_cons] at *
      set d := (List.zipWith (fun x y => x * y) xs ys).sum with hdDef
      set A := (xs.map (fun x => x * x)).sum with hADef
      set B := (ys.map (fun x => x * x)).sum with hBDef
      rcases eq_or_lt_of_le hB with hB0 | hBpos
      · rw [← hB0] at hd ⊢
        have hd0 : d = 0 := by nlinarith [sq_nonneg d]
        rw [hd0]
        nlinarith [mul_nonneg hA (sq_nonneg y)]
      · nlinarith [sq_nonneg (x * B - y * d),
          mul_nonneg (sq_nonneg y) (sub_nonneg.2 hd),
          mul_nonneg (le_of_lt hBpos) (sub_nonneg.2 hd)]

/-- C7: for equal-length vectors, a zero magnitude on either side short-circuits
to 0 before any division; otherwise the result is the dot product divided by
the product of the two norms and lies in `[-1, 1]`. -/
theorem C7_cosine_similarity_guarded (a b : List ℝ) (hlen : a.length = b.length) :
    ((Real.sqrt (sumSq a) = 0 ∨ Real.sqrt (sumSq b) = 0) → _cosine_similarity a b = 0)
    ∧ (Real.sqrt (sumSq a) ≠ 0 → Real.sqrt (sumSq b) ≠ 0 →
        _cosine_similarity a b =
          (List.zipWith (fun x y => x * y) a b).sum /
            (Real.sqrt (sumSq a) * Real.sqrt (sumSq b))
        ∧ -1 ≤ _cosine_similarity a b ∧ _cosine_similarity a b ≤ 1) := by
  constructor
  · intro h
    simp only [_cosine_similarity]
    rw [if_pos h]
  · intro ha hb
    have hA := sumSq_nonneg a
    have hB := sumSq_nonneg b
    have hna : 0 < Real.sqrt (sumSq a) :=
      lt_of_le_of_ne (Real.sqrt_nonneg _) (Ne.symm ha)
    have hnb : 0 < Real.sqrt (sumSq b) :=
      lt_of_le_of_ne (Real.sqrt_nonneg _) (Ne.symm hb)
    have hval : _cosine_similarity a b =
        (List.zipWith (fun x y => x * y) a b).sum /
          (Real.sqrt (sumSq a) * Real.sqrt (sumSq b)) := by
      simp only [_cosine_similarity]
      rw [if_neg]
      push_neg
      exact ⟨ha, hb⟩
    have hCS := zip_dot_sq_le a b
    refine ⟨hval, ?_, ?_⟩
    · rw [hval, le_div_iff (mul_pos hna hnb)]
      nlinarith [Real.sq_sqrt hA, Real.sq_sqrt hB, mul_pos hna hnb]
    · rw [hval, div_le_one (mul_pos hna hnb)]
      nlinarith [Real.sq_sqrt hA, Real.sq_sqrt hB, mul_pos hna hnb]

/-- Witness for C7 at `a = [1, 0]`, `b = [0, 1]`. -/
theorem C7_cosine_similarity_guarded_witness :
    (([(1:ℝ), 0] : List ℝ).length = ([(0:ℝ), 1] : List ℝ).length)
    ∧ Real.sqrt (sumSq [(1:ℝ), 0]) ≠ 0
    ∧ Real.sqrt (sumSq [(0:ℝ), 1]) ≠ 0
    ∧ (-1 ≤ _cosine_similarity [(1:ℝ), 0] [(0:ℝ), 1]
        ∧ _cosine_similarity [(1:ℝ), 0] [(0:ℝ), 1] ≤ 1) := by
  have hs1 : sumSq [(1:ℝ), 0] = 1 := by norm_num [sumSq]
  have hs2 : sumSq [(0:ℝ), 1] = 1 := by norm_num [sumSq]
  have h1 : Real.sqrt (sumSq [(1:ℝ), 0]) ≠ 0 := by
    rw [hs1, Real.sqrt_one]; norm_num
  have h2 : Real.sqrt (sumSq [(0:ℝ), 1]) ≠ 0 := by
    rw [hs2, Real.sqrt_one]; norm_num
  have h := (C7_cosine_similarity_guarded [(1:ℝ), 0] [(0:ℝ), 1] rfl).2 h1 h2
  exact ⟨rfl, h1, h2, h.2.1, h.2.2⟩

theorem sortDesc_perm (l : List (ℝ × Page)) : List.Perm (sortDesc l) l :=
  List.perm_insertionSort scoreGe l

theorem sortDesc_pairwise (l : List (ℝ × Page)) : (sortDesc l).Pairwise scoreGe :=
  List.sorted_insertionSort scoreGe l

theorem filter_orderedInsert_of_eq (s : ℝ) (x : ℝ × Page) (l : List (ℝ × Page))
    (hx : x.1 = s) :
    (List.orderedInsert scoreGe x l).filter (fun y => decide (y.1 = s))
      = x :: l.filter (fun y => decide (y.1 = s)) := by
  induction l with
  | nil => simp [List.orderedInsert, hx]
  | cons y ys ih =>
    by_cases hr : scoreGe x y
    · simp [List.orderedInsert, hr, hx]
    · have hlt : x.1 < y.1 := lt_of_not_le hr
      have hy : y.1 ≠ s := by rw [← hx]; exact ne_of_gt hlt
      simp [List.orderedInsert, hr, hy, ih]

theorem filter_orderedInsert_of_ne (s : ℝ) (x : ℝ × Page) (l : List (ℝ × Page))
    (hx : x.1 ≠ s) :
    (List.orderedInsert scoreGe x l).filter (fun y => decide (y.1 = s))
      = l.filter (fun y => decide (y.1 = s)) := by
  induction l with
  | nil => simp [List.orderedInsert, hx]
  | cons y ys ih =>
    by_cases hr : scoreGe x y
    · simp [List.orderedInsert, hr, hx]
    · by_cases hy : y.1 = s
      · simp [List.orderedInsert, hr, hy, ih]
      · simp [List.orderedInsert, hr, hy, ih]

/-- Stability of the embedded sort: for any score, the equal-score candidates
appear in the sorted list in their original (fetch) order. -/
theorem sortDesc_filter_score (s : ℝ) (l : List (ℝ × Page)) :
    (sortDesc l).filter (fun y => decide (y.1 = s))
      = l.filter (fun y => decide (y.1 = s)) := by
  induction l with
  | nil => simp [sortDesc, List.insertionSort]
  | cons x xs ih =>
    show (List.orderedInsert scoreGe x (sortDesc xs)).filter _ = _
    by_cases hx : x.1 = s
    · rw [filter_orderedInsert_of_eq s x (sortDesc xs) hx, ih]
      simp [hx]
    · rw [filter_orderedInsert_of_ne s x (sortDesc xs) hx, ih]
      simp [hx]

/-- On a descending-sorted list, slicing a prefix and then filtering by a
strict lower score bound agrees with filtering first and then slicing. -/
theorem take_filter_comm (t : ℝ) (l : List (ℝ × Page)) :
    ∀ n : ℕ, l.Pairwise scoreGe →
      (l.take n).filter (fun x => decide (t < x.1))
        = (l.filter (fun x => decide (t < x.1))).take n := by
  induction l with
  | nil => intro n _; simp
  | cons x xs ih =>
    intro n hp
    rcases List.pairwise_cons.1 hp with ⟨hx, hxs⟩
    cases n with
    | zero => simp
    | succ n =>
      by_cases hpx : t < x.1
      · simp [List.take_succ_cons, hpx, ih n hxs]
      · have hall : ∀ y ∈ xs, ¬ t < y.1 := fun y hy hlt => hpx (lt_of_lt_of_le hlt (hx y hy))
        have h1 : (xs.take n).filter (fun x => decide (t < x.1)) = [] :=
          List.filter_eq_nil.2 (fun y hy => by
            simpa using hall y (List.take_subset n xs hy))
        have h2 : xs.filter (fun x => decide (t < x.1)) = [] :=
          List.filter_eq_nil.2 (fun y hy => by simpa using hall y hy)
        simp [List.take_succ_cons, hpx, h1, h2]

theorem pySlice_natCast {α : Type _} (N : ℕ) (l : List α) :
    pySlice (N : Int) l = l.take N := by
  simp [pySlice]

/-- C6: a blank (empty or whitespace-only) query returns the first `N` pages of
the fetched, recency-sorted set, with no embedding-service calls (the trace of
embedded texts is empty) and the cache untouched; and `list_recent_notes` is
definitionally this query-less search. -/
theorem C6_blank_query_lists_recent (fetch : Option (List Page))
    (emb : String → Option (List ℝ)) (cache : Cache) (query : String) (N : ℕ)
    (pages : List Page) (hfetch : fetch = some pages) (hq : pyStrip query = "") :
    search_notes fetch emb cache query (N : Int) = ([], some (pages.take N, cache))
    ∧ list_recent_notes fetch emb cache (N : Int)
        = search_notes fetch emb cache "" (N : Int) := by
  subst hfetch
  refine ⟨?_, rfl⟩
  by_cases hp : pages.isEmpty
  · have hpages : pages = [] := by simpa using hp
    subst hpages
    simp [search_notes]
  · have hp' : pages.isEmpty = false := by simpa using hp
    simp [search_notes, hp', hq, pySlice_natCast]

/-- Witness for C6: a whitespace-only query over a two-page fetch. -/
theorem C6_blank_query_lists_recent_witness :
    (some [pageA, pageB] = some [pageA, pageB] ∧ pyStrip "  " = "")
    ∧ search_notes (some [pageA, pageB]) (fun _ => none) [] "  " ((1 : ℕ) : Int)
        = ([], some ([pageA, pageB].take 1, []))
    ∧ list_recent_notes (some [pageA, pageB]) (fun _ => none) [] ((1 : ℕ) : Int)
        = search_notes (some [pageA, pageB]) (fun _ => none) [] "" ((1 : ℕ) : Int) := by
  have h := C6_blank_query_lists_recent (some [pageA, pageB]) (fun _ => none) [] "  " 1
    [pageA, pageB] rfl (by rfl)
  exact ⟨⟨rfl, by rfl⟩, h.1, h.2⟩

/-- C2: with a non-blank query, the returned documents are exactly the first
`N` of the descending-sorted scored candidates that score strictly above the
0.3 floor (the source slices before filtering, but on a descending-sorted list
that equals filtering first and then taking `N`); in particular, if at least
`N` candidates score strictly above 0.3, exactly `N` documents are returned. -/
theorem C2_floor_filter_then_first_N (fetch : Option (List Page))
    (emb : String → Option (List ℝ)) (cache : Cache) (query : String) (N : ℕ)
    (pages : List Page) (qe : List ℝ) (tr : List String)
    (scored : List (ℝ × Page)) (c' : Cache)
    (hfetch : fetch = some pages) (hq : pyStrip query ≠ "")
    (hemb : emb query = some qe)
    (hloop : scoreLoop emb qe pages cache = (tr, some (scored, c'))) :
    ∀ res c'', (search_notes fetch emb cache query (N : Int)).2 = some (res, c'') →
      res = (((sortDesc scored).filter (fun x => decide ((0.3:ℝ) < x.1))).take N).map Prod.snd
      ∧ (N ≤ (scored.filter (fun x => decide ((0.3:ℝ) < x.1))).length → res.length = N) := by
  subst hfetch
  intro res c'' hres
  by_cases hp : pages.isEmpty
  · have hpages : pages = [] := by simpa using hp
    subst hpages
    simp only [scoreLoop, Prod.mk.injEq, Option.some.injEq] at hloop
    obtain ⟨htr, hscored, hc'⟩ := hloop
    simp only [search_notes, List.isEmpty_nil, if_true, Option.some.injEq,
      Prod.mk.injEq] at hres
    obtain ⟨hres1, hres2⟩ := hres
    constructor
    · rw [← hres1, ← hscored]
      simp [sortDesc, List.insertionSort]
    · intro hN
      rw [← hscored] at hN
      simp at hN
      rw [← hres1]
      simp [hN]
  · have hp' : pages.isEmpty = false := by simpa using hp
    simp only [search_notes, hp', Bool.false_eq_true, if_false, if_neg hq, hemb, hloop,
      Option.some.injEq, Prod.mk.injEq] at hres
    obtain ⟨hres1, hres2⟩ := hres
    have hsorted : (sortDesc scored).Pairwise scoreGe := sortDesc_pairwise scored
    have hcomm := take_filter_comm (0.3:ℝ) (sortDesc scored) N hsorted
    constructor
    · rw [← hres1, pySlice_natCast, hcomm]
    · intro hN
      have hlenfil : ((sortDesc scored).filter (fun x => decide ((0.3:ℝ) < x.1))).length
          = (scored.filter (fun x => decide ((0.3:ℝ) < x.1))).length :=
        ((sortDesc_perm scored).filter _).length_eq
      rw [← hres1, pySlice_natCast, hcomm]
      simp only [List.length_map, List.length_take, hlenfil]
      exact Nat.min_eq_left hN

theorem cosW_eval : _cosine_similarity [(1:ℝ)] [(0:ℝ)] = 0 := by
  have h : sumSq [(0:ℝ)] = 0 := by norm_num [sumSq]
  simp [_cosine_similarity, h, Real.sqrt_zero]

theorem scoreLoopW_eval :
    scoreLoop embW [(1:ℝ)] [pageA] []
      = (["Alpha"], some ([((0:ℝ), pageA)], [("id-a", ("Alpha", [(0:ℝ)]))])) := by
  have h : scoreLoop embW [(1:ℝ)] [pageA] []
      = (["Alpha"], some ([(_cosine_similarity [(1:ℝ)] [(0:ℝ)], pageA)],
          [("id-a", ("Alpha", [(0:ℝ)]))])) := rfl
  rw [h, cosW_eval]

theorem searchW_eval :
    (search_notes (some [pageA]) embW [] "q" ((1:ℕ) : Int)).2
      = some ([], [("id-a", ("Alpha", [(0:ℝ)]))]) := by
  have hq : (pyStrip "q" = "") = False := by
    simp only [eq_iff_iff, iff_false]
    decide
  have hemb : embW "q" = some [(1:ℝ)] := rfl
  have hfil : ([((0:ℝ), pageA)].filter (fun x => decide ((0.3:ℝ) < x.1))) = [] := by
    simp only [List.filter]
    norm_num
  simp only [search_notes, List.isEmpty_cons, Bool.false_eq_true, hq, if_false, hemb,
    scoreLoopW_eval, pySlice_natCast, sortDesc, List.insertionSort, List.orderedInsert,
    List.take, hfil, List.map_nil]

/-- Witness for C2 at a one-page fetch whose title scores 0 against the query. -/
theorem C2_floor_filter_then_first_N_witness :
    pyStrip "q" ≠ ""
    ∧ embW "q" = some [(1:ℝ)]
    ∧ scoreLoop embW [(1:ℝ)] [pageA] []
        = (["Alpha"], some ([((0:ℝ), pageA)], [("id-a", ("Alpha", [(0:ℝ)]))]))
    ∧ (search_notes (some [pageA]) embW [] "q" ((1:ℕ) : Int)).2
        = some ([], [("id-a", ("Alpha", [(0:ℝ)]))])
    ∧ ([] : List Page)
        = (((sortDesc [((0:ℝ), pageA)]).filter
              (fun x => decide ((0.3:ℝ) < x.1))).take 1).map Prod.snd
    ∧ ((1:ℕ) ≤ ([((0:ℝ), pageA)].filter (fun x => decide ((0.3:ℝ) < x.1))).length →
        ([] : List Page).length = 1) := by
  have h := C2_floor_filter_then_first_N (some [pageA]) embW [] "q" 1 [pageA]
    [(1:ℝ)] ["Alpha"] [((0:ℝ), pageA)] [("id-a", ("Alpha", [(0:ℝ)]))]
    rfl (by decide) rfl scoreLoopW_eval [] [("id-a", ("Alpha", [(0:ℝ)]))] searchW_eval
  exact ⟨by decide, rfl, scoreLoopW_eval, searchW_eval, h.1, h.2⟩

/-- C5: with a non-blank query the search returns at most `N` documents; they
are the second components of a scored list `out` that is descending-sorted
(`scoreGe`-pairwise), every returned candidate scores strictly above 0.3, and
for each score value the returned equal-score candidates keep their original
fetch order (a sublist of the fetch-ordered candidates with that score). -/
theorem C5_search_bounded_sorted_stable (fetch : Option (List Page))
    (emb : String → Option (List ℝ)) (cache : Cache) (query : String) (N : ℕ)
    (pages : List Page) (qe : List ℝ) (tr : List String)
    (scored : List (ℝ × Page)) (c' : Cache)
    (hfetch : fetch = some pages) (hq : pyStrip query ≠ "")
    (hemb : emb query = some qe)
    (hloop : scoreLoop emb qe pages cache = (tr, some (scored, c'))) :
    ∀ res c'', (search_notes fetch emb cache query (N : Int)).2 = some (res, c'') →
      ∃ out : List (ℝ × Page),
        res = out.map Prod.snd
        ∧ res.length ≤ N
        ∧ out.Pairwise scoreGe
        ∧ (∀ x ∈ out, (0.3:ℝ) < x.1)
        ∧ ∀ s : ℝ, List.Sublist (out.filter (fun x => decide (x.1 = s)))
            (scored.filter (fun x => decide (x.1 = s))) := by
  subst hfetch
  intro res c'' hres
  by_cases hp : pages.isEmpty
  · have hpages : pages = [] := by simpa using hp
    subst hpages
    simp only [scoreLoop, Prod.mk.injEq, Option.some.injEq] at hloop
    obtain ⟨htr, hscored, hc'⟩ := hloop
    simp only [search_notes, List.isEmpty_nil, if_true, Option.some.injEq,
      Prod.mk.injEq] at hres
    obtain ⟨hres1, hres2⟩ := hres
    refine ⟨[], ?_, ?_, ?_, ?_, ?_⟩
    · rw [← hres1]; rfl
    · rw [← hres1]; simp
    · exact List.Pairwise.nil
    · intro x hx; cases hx
    · intro s; rw [← hscored]
  · have hp' : pages.isEmpty = false := by simpa using hp
    simp only [search_notes, hp', Bool.false_eq_true, if_false, if_neg hq, hemb, hloop,
      Option.some.injEq, Prod.mk.injEq] at hres
    obtain ⟨hres1, hres2⟩ := hres
    refine ⟨((sortDesc scored).take N).filter (fun x => decide ((0.3:ℝ) < x.1)),
      ?_, ?_, ?_, ?_, ?_⟩
    · rw [← hres1, pySlice_natCast]
    · rw [← hres1, pySlice_natCast]
      simp only [List.length_map]
      exact le_trans (List.length_filter_le _ _) (by
        simpa using min_le_left N (sortDesc scored).length)
    · exact List.Pairwise.sublist
        (List.Sublist.trans (List.filter_sublist _) (List.take_sublist N _))
        (sortDesc_pairwise scored)
    · intro x hx
      have := List.of_mem_filter hx
      simpa using this
    · intro s
      have h1 : List.Sublist (((sortDesc scored).take N).filter
          (fun x => decide ((0.3:ℝ) < x.1))) (sortDesc scored) :=
        List.Sublist.trans (List.filter_sublist _) (List.take_sublist N _)
      have h2 := List.Sublist.filter (fun x => decide (x.1 = s)) h1
      rw [sortDesc_filter_score s scored] at h2
      exact h2

/-- Witness for C5 at a one-page fetch whose title scores 0 against the query. -/
theorem C5_search_bounded_sorted_stable_witness :
    pyStrip "q" ≠ ""
    ∧ embW "q" = some [(1:ℝ)]
    ∧ scoreLoop embW [(1:ℝ)] [pageA] []
        = (["Alpha"], some ([((0:ℝ), pageA)], [("id-a", ("Alpha", [(0:ℝ)]))]))
    ∧ (search_notes (some [pageA]) embW [] "q" ((1:ℕ) : Int)).2
        = some ([], [("id-a", ("Alpha", [(0:ℝ)]))])
    ∧ ∃ out : List (ℝ × Page),
        ([] : List Page) = out.map Prod.snd
        ∧ ([] : List Page).length ≤ 1
        ∧ out.Pairwise scoreGe
        ∧ (∀ x ∈ out, (0.3:ℝ) < x.1)
        ∧ ∀ s : ℝ, List.Sublist (out.filter (fun x => decide (x.1 = s)))
            ([((0:ℝ), pageA)].filter (fun x => decide (x.1 = s))) := by
  have h := C5_search_bounded_sorted_stable (some [pageA]) embW [] "q" 1 [pageA]
    [(1:ℝ)] ["Alpha"] [((0:ℝ), pageA)] [("id-a", ("Alpha", [(0:ℝ)]))]
    rfl (by decide) rfl scoreLoopW_eval [] [("id-a", ("Alpha", [(0:ℝ)]))] searchW_eval
  exact ⟨by decide, rfl, scoreLoopW_eval, searchW_eval, h⟩

theorem cacheGet_cachePut (c : Cache) (k k' t : String) (v : List ℝ) :
    cacheGet (cachePut c k t v) k' = if k = k' then some (t, v) else cacheGet c k' := by
  induction c with
  | nil =>
    by_cases h : k = k' <;> simp [cachePut, cacheGet, dictLookup, h]
  | cons e es ih =>
    by_cases he : e.1 = k
    · by_cases h : k = k'
      · simp [cachePut, cacheGet, dictLookup, he, h]
      · have he' : e.1 ≠ k' := by rw [he]; exact h
        simp [cachePut, cacheGet, dictLookup, he, he', h]
    · by_cases he' : e.1 = k'
      · have h : ¬ k = k' := by rw [← he']; intro hk; exact he hk.symm
        have h2 : ¬ k' = k := fun hk => h hk.symm
        simp [cachePut, cacheGet, dictLookup, he, he', h, h2]
      · simpa [cachePut, cacheGet, dictLookup, he, he'] using ih

/-- If some page in the remaining list needs a fresh title embedding (its
cache entry is absent or stale) and that embedding call raises, the whole
title-scoring loop raises. -/
theorem scoreLoop_fails_of_title_failure (emb : String → Option (List ℝ))
    (qe : List ℝ) :
    ∀ (pages : List Page) (cache : Cache),
      (∃ p ∈ pages, emb p.title = none ∧
        (∀ e, cacheGet cache p.id = some e → e.1 ≠ p.title)) →
      (scoreLoop emb qe pages cache).2 = none := by
  intro pages
  induction pages with
  | nil =>
    intro cache h
    rcases h with ⟨p, hp, _⟩
    cases hp
  | cons page rest ih =>
    intro cache h
    rcases h with ⟨p, hp, hembp, hcachep⟩
    rcases List.mem_cons.1 hp with heq | hprest
    · subst heq
      simp only [scoreLoop]
      cases hc : cacheGet cache p.id with
      | some entry =>
        have hne : entry.1 ≠ p.title := hcachep entry hc
        simp [hc, hne, hembp]
      | none => simp [hc, hembp]
    · simp only [scoreLoop]
      cases hc : cacheGet cache page.id with
      | some entry =>
        by_cases ht : entry.1 = page.title
        · have hrec := ih cache ⟨p, hprest, hembp, hcachep⟩
          cases hsl : scoreLoop emb qe rest cache with
          | mk tr o =>
            cases o with
            | none => simp [ht, hsl]
            | some x =>
              rw [hsl] at hrec
              simp at hrec
        · cases hce : emb page.title with
          | none => simp [ht, hce]
          | some v =>
            have hinv : ∀ e, cacheGet (cachePut cache page.id page.title v) p.id = some e →
                e.1 ≠ p.title := by
              intro e he
              rw [cacheGet_cachePut] at he
              by_cases hid : page.id = p.id
              · rw [if_pos hid] at he
                have he' : e = (page.title, v) := (Option.some.inj he).symm
                rw [he']
                intro htt
                have htt2 : page.title = p.title := htt
                rw [htt2] at hce
                rw [hce] at hembp
                cases hembp
              · rw [if_neg hid] at he
                exact hcachep e he
            have hrec := ih (cachePut cache page.id page.title v)
              ⟨p, hprest, hembp, hinv⟩
            cases hsl : scoreLoop emb qe rest (cachePut cache page.id page.title v) with
            | mk tr o =>
              cases o with
              | none => simp [ht, hce, hsl]
              | some x =>
                rw [hsl] at hrec
                simp at hrec
      | none =>
        cases hce : emb page.title with
        | none => simp [hce]
        | some v =>
          have hinv : ∀ e, cacheGet (cachePut cache page.id page.title v) p.id = some e →
              e.1 ≠ p.title := by
            intro e he
            rw [cacheGet_cachePut] at he
            by_cases hid : page.id = p.id
            · rw [if_pos hid] at he
              have he' : e = (page.title, v) := (Option.some.inj he).symm
              rw [he']
              intro htt
              have htt2 : page.title = p.title := htt
              rw [htt2] at hce
              rw [hce] at hembp
              cases hembp
            · rw [if_neg hid] at he
              exact hcachep e he
          have hrec := ih (cachePut cache page.id page.title v)
            ⟨p, hprest, hembp, hinv⟩
          cases hsl : scoreLoop emb qe rest (cachePut cache page.id page.title v) with
          | mk tr o =>
            cases o with
            | none => simp [hce, hsl]
            | some x =>
              rw [hsl] at hrec
              simp at hrec

/-- Counterexample for C4 as stated: the query "q" embeds fine but the single
page title fails to embed; the claim predicts that the page is merely excluded
and the search succeeds, yet the whole call raises (`none`) — there is no
`try/except` around the per-title embedding in the source. -/
theorem C4_counterexample_title_failure_aborts :
    embC4 "q" = some [(1:ℝ)]
    ∧ embC4 pageA.title = none
    ∧ (search_notes (some [pageA]) embC4 [] "q" 5).2 = none := by
  exact ⟨rfl, rfl, rfl⟩

/-- C4 (amended): with pages fetched and a non-blank query, a failing query
embedding fails the whole search; and a failing embedding for any document
title that is not validly cached also fails the whole search — the document
is not excluded and the loop does not continue. -/
theorem C4_amended_any_embedding_failure_aborts (fetch : Option (List Page))
    (emb : String → Option (List ℝ)) (cache : Cache) (query : String) (limit : Int)
    (pages : List Page) (hfetch : fetch = some pages) (hne : pages ≠ [])
    (hq : pyStrip query ≠ "") :
    (emb query = none → (search_notes fetch emb cache query limit).2 = none)
    ∧ (∀ qe, emb query = some qe →
        (∃ p ∈ pages, emb p.title = none ∧
          (∀ e, cacheGet cache p.id = some e → e.1 ≠ p.title)) →
        (search_notes fetch emb cache query limit).2 = none) := by
  subst hfetch
  have hp' : pages.isEmpty = false := by
    cases pages with
    | nil => cases hne rfl
    | cons a l => rfl
  constructor
  · intro h
    simp [search_notes, hp', hq, h]
  · intro qe hqe hex
    have hfail := scoreLoop_fails_of_title_failure emb qe pages cache hex
    simp only [search_notes, hp', Bool.false_eq_true, if_false, if_neg hq, hqe]
    cases hsl : scoreLoop emb qe pages cache with
    | mk tr o =>
      cases o with
      | none => rfl
      | some x =>
        rw [hsl] at hfail
        simp at hfail

/-- Witness for the amended C4 at the counterexample input. -/
theorem C4_amended_any_embedding_failure_aborts_witness :
    ([pageA] ≠ ([] : List Page)
      ∧ pyStrip "q" ≠ ""
      ∧ embC4 "q" = some [(1:ℝ)]
      ∧ pageA ∈ [pageA]
      ∧ embC4 pageA.title = none)
    ∧ (search_notes (some [pageA]) embC4 [] "q" 5).2 = none := by
  have h := (C4_amended_any_embedding_failure_aborts (some [pageA]) embC4 [] "q" 5
    [pageA] rfl (List.cons_ne_nil pageA []) (by decide)).2 [(1:ℝ)] rfl
    ⟨pageA, List.mem_singleton.2 rfl, rfl, by
      intro e he
      simp [cacheGet, dictLookup] at he⟩
  exact ⟨⟨List.cons_ne_nil pageA [], by decide, rfl, List.mem_singleton.2 rfl, rfl⟩, h⟩

theorem cacheGet_cacheErase (c : Cache) (k : String) :
    cacheGet (cacheErase c k) k = none := by
  induction c with
  | nil => rfl
  | cons e es ih =>
    by_cases he : e.1 = k
    · simpa [cacheErase, cacheGet, dictLookup, he] using ih
    · simpa [cacheErase, cacheGet, dictLookup, he] using ih

/-- C8: storing `(id, title, vector)` makes lookup of `id` yield exactly
`(title, vector)`; invalidating an entry (as `archive_page` does via
`pop`) makes lookup of `id` absent. -/
theorem C8_cache_store_lookup_invalidate :
    (∀ (c : Cache) (id title : String) (v : List ℝ),
      cacheGet (cachePut c id title v) id = some (title, v))
    ∧ (∀ (c : Cache) (id : String), cacheGet (cacheErase c id) id = none)
    ∧ (∀ (upd : String → Option Unit) (c : Cache) (id : String) (c' : Cache) (b : Bool),
        (archive_page upd c id).2 = some (c', b) → cacheGet c' id = none) := by
  refine ⟨?_, cacheGet_cacheErase, ?_⟩
  · intro c id title v
    rw [cacheGet_cachePut]
    simp
  · intro upd c id c' b h
    cases hu : upd id with
    | none =>
      simp only [archive_page, hu] at h
      exact Option.noConfusion h
    | some u =>
      simp only [archive_page, hu, Option.some.injEq, Prod.mk.injEq] at h
      rw [← h.1]
      exact cacheGet_cacheErase c id

/-- Witness for C8 at a concrete id, title and vector. -/
theorem C8_cache_store_lookup_invalidate_witness :
    cacheGet (cachePut [] "id-a" "Alpha" [(0:ℝ)]) "id-a" = some ("Alpha", [(0:ℝ)])
    ∧ (archive_page (fun _ => some ()) [("id-a", ("Alpha", [(0:ℝ)]))] "id-a").2
        = some (cacheErase [("id-a", ("Alpha", [(0:ℝ)]))] "id-a", true)
    ∧ cacheGet (cacheErase [("id-a", ("Alpha", [(0:ℝ)]))] "id-a") "id-a" = none := by
  exact ⟨C8_cache_store_lookup_invalidate.1 [] "id-a" "Alpha" [(0:ℝ)], rfl,
    C8_cache_store_lookup_invalidate.2.2 (fun _ => some ())
      [("id-a", ("Alpha", [(0:ℝ)]))] "id-a" _ true rfl⟩

/-- Counterexample for C3 as stated: a well-formed JSON object response that
merely lacks the intent field is returned verbatim by `classify_intent`, not
replaced by the default result. -/
theorem C3_counterexample_missing_intent_not_default :
    classify_intent (fun _ => some (JVal.obj [("params", JVal.obj [])])) "hi"
        = JVal.obj [("params", JVal.obj [])]
    ∧ JVal.obj [("params", JVal.obj [])] ≠ default_classification := by
  constructor
  · rfl
  · intro h
    simp [default_classification] at h

/-- C3 (amended): any failure in the remote call-and-parse chain (network
error, non-JSON body, error-shaped response) yields exactly the default
classification and never raises; a successfully parsed JSON value — even one
missing the intent field — is returned unchanged, the default intent being
supplied only later by `handle_message`'s `get`. -/
theorem C3_amended_classify_fallback (asi : String → Option JVal) (text : String) :
    (asi text = none → classify_intent asi text = default_classification)
    ∧ (∀ j, asi text = some j → classify_intent asi text = j) := by
  constructor
  · intro h
    simp [classify_intent, h]
  · intro j h
    simp [classify_intent, h]

/-- Witness for the amended C3: a failing call and a successful parse. -/
theorem C3_amended_classify_fallback_witness :
    classify_intent (fun _ => none) "hi" = default_classification
    ∧ classify_intent (fun _ => some (JVal.obj [])) "hi" = JVal.obj [] :=
  ⟨(C3_amended_classify_fallback (fun _ => none) "hi").1 rfl,
   (C3_amended_classify_fallback (fun _ => some (JVal.obj [])) "hi").2 (JVal.obj []) rfl⟩

/-- C9: with the workspace initialized, an append (or add-todo) request whose
title or text/task parameter is absent or empty returns the
prompt-for-both-fields message, performs no workspace operation, and leaves
the cache untouched. -/
theorem C9_missing_params_prompt_no_ops (env : HandlerEnv) (cache : Cache)
    (fs : List (String × JVal)) (hensure : env.ensure = none) :
    ((dictLookup fs "title" = none ∨ dictLookup fs "title" = some (JVal.str "")
        ∨ dictLookup fs "text" = none ∨ dictLookup fs "text" = some (JVal.str "")) →
      handle_append_note env cache (JVal.obj fs)
        = ([], some ("I need both a note title and the text to append.", cache)))
    ∧ ((dictLookup fs "title" = none ∨ dictLookup fs "title" = some (JVal.str "")
        ∨ dictLookup fs "task" = none ∨ dictLookup fs "task" = some (JVal.str "")) →
      handle_add_todo env cache (JVal.obj fs)
        = ([], some ("I need both a note title and the task text.", cache))) := by
  constructor
  · intro hdisj
    rcases hdisj with h | h | h | h
    all_goals simp [handle_append_note, hensure, jGetD, h, jFalsy]
  · intro hdisj
    rcases hdisj with h | h | h | h
    all_goals simp [handle_add_todo, hensure, jGetD, h, jFalsy]

/-- Witness for C9: `{"title": "X"}` with no text/task. -/
theorem C9_missing_params_prompt_no_ops_witness :
    envW.ensure = none
    ∧ dictLookup [("title", JVal.str "X")] "text" = none
    ∧ dictLookup [("title", JVal.str "X")] "task" = none
    ∧ handle_append_note envW [] (JVal.obj [("title", JVal.str "X")])
        = ([], some ("I need both a note title and the text to append.", []))
    ∧ handle_add_todo envW [] (JVal.obj [("title", JVal.str "X")])
        = ([], some ("I need both a note title and the task text.", [])) := by
  have h := C9_missing_params_prompt_no_ops envW [] [("title", JVal.str "X")] rfl
  exact ⟨rfl, rfl, rfl, h.1 (Or.inr (Or.inr (Or.inl rfl))),
    h.2 (Or.inr (Or.inr (Or.inl rfl)))⟩

/-- C10: an intent string outside the nine table keys is absent from
`INTENT_HANDLERS`, so `dict.get` falls back to the general-query handler,
which always produces a reply (its remote call is wrapped in `try/except`). -/
theorem C10_unknown_intent_routes_to_general (intent : String)
    (hintent : intent ∉ (["connect_notion", "search_notes", "list_notes", "read_note",
      "create_note", "append_note", "add_todo", "archive_note", "general_query"]
      : List String)) :
    dictLookup INTENT_HANDLERS intent = none
    ∧ lookupHandler (JVal.str intent)
        = some (fun env c _ t => handle_general_query env c t)
    ∧ ∀ (env : HandlerEnv) (cache : Cache) (text : String),
        ∃ r, handle_general_query env cache text = ([], some (r, cache)) := by
  simp only [List.mem_cons, List.mem_singleton, not_or] at hintent
  obtain ⟨h1, h2, h3, h4, h5, h6, h7, h8, h9, -⟩ := hintent
  have hlook : dictLookup INTENT_HANDLERS intent = none := by
    simp [INTENT_HANDLERS, dictLookup, Ne.symm h1, Ne.symm h2, Ne.symm h3, Ne.symm h4,
      Ne.symm h5, Ne.symm h6, Ne.symm h7, Ne.symm h8, Ne.symm h9]
  refine ⟨hlook, ?_, ?_⟩
  · simp [lookupHandler, hlook]
  · intro env cache text
    cases hg : env.asiGeneral text with
    | none => exact ⟨"Sorry, I wasn\x27t able to process that.", by
        simp [handle_general_query, hg]⟩
    | some answer => exact ⟨answer, by simp [handle_general_query, hg]⟩

/-- Witness for C10 at the unknown intent string "bogus". -/
theorem C10_unknown_intent_routes_to_general_witness :
    ("bogus" ∉ (["connect_notion", "search_notes", "list_notes", "read_note",
      "create_note", "append_note", "add_todo", "archive_note", "general_query"]
      : List String))
    ∧ dictLookup INTENT_HANDLERS "bogus" = none
    ∧ lookupHandler (JVal.str "bogus")
        = some (fun env c _ t => handle_general_query env c t)
    ∧ ∃ r, handle_general_query envW [] "hi" = ([], some (r, [])) := by
  have h := C10_unknown_intent_routes_to_general "bogus" (by decide)
  exact ⟨by decide, h.1, h.2.1, h.2.2 envW [] "hi"⟩

/-- Counterexample for C1 as stated: a message classified as `search_notes`
whose dispatched handler raises (the workspace fetch fails).  `handle_message`
has no `try/except`, so the exception propagates (`none`) and only the
acknowledgement is sent — no reply at all, let alone an apology. -/
theorem C1_counterexample_dispatch_exception_no_reply :
    handle_message envC1 [] [ContentItem.text "hi"] = ([OutMsg.ack], none) := by
  rfl

/-- C1 (amended): the session handler emits exactly one reply (after the
unconditional acknowledgement) whenever the request runs to completion —
classification failures are absorbed inside `classify_intent` — but when the
dispatched handler (or the field access on a non-object classification
result) raises, the exception propagates out of `handle_message` and only the
acknowledgement is sent, with no reply. -/
theorem C1_amended_one_reply_unless_dispatch_raises (env : HandlerEnv)
    (cache : Cache) (content : List ContentItem) :
    (∀ c', (handle_message env cache content).2 = some c' →
      ∃ r, (handle_message env cache content).1 = [OutMsg.ack, OutMsg.reply r])
    ∧ ((handle_message env cache content).2 = none →
      (handle_message env cache content).1 = [OutMsg.ack]) := by
  by_cases hb : pyStrip (extractText content) = ""
  · constructor
    · intro c' h
      exact ⟨"I didn\x27t receive any text. Please send me a message!", by
        simp [handle_message, hb]⟩
    · intro h
      simp [handle_message, hb] at h
  · cases h1 : jGetD (classify_intent env.asiClassify (extractText content)) "intent"
        (JVal.str "general_query") with
    | none =>
      constructor
      · intro c' h
        simp [handle_message, hb, h1] at h
      · intro h
        simp [handle_message, hb, h1]
    | some intentJ =>
      cases h2 : jGetD (classify_intent env.asiClassify (extractText content)) "params"
          (JVal.obj []) with
      | none =>
        constructor
        · intro c' h
          simp [handle_message, hb, h1, h2] at h
        · intro h
          simp [handle_message, hb, h1, h2]
      | some paramsJ =>
        cases h3 : lookupHandler intentJ with
        | none =>
          constructor
          · intro c' h
            simp [handle_message, hb, h1, h2, h3] at h
          · intro h
            simp [handle_message, hb, h1, h2, h3]
        | some hh =>
          cases h4 : (hh env cache paramsJ (extractText content)).2 with
          | none =>
            constructor
            · intro c' h
              simp [handle_message, hb, h1, h2, h3, h4] at h
            · intro h
              simp [handle_message, hb, h1, h2, h3, h4]
          | some rc =>
            obtain ⟨r0, c0⟩ := rc
            constructor
            · intro c' h
              exact ⟨r0, by simp [handle_message, hb, h1, h2, h3, h4]⟩
            · intro h
              simp [handle_message, hb, h1, h2, h3, h4] at h

/-- Witness for the amended C1: a blank message completes and gets exactly
one reply. -/
theorem C1_amended_one_reply_unless_dispatch_raises_witness :
    (handle_message envW [] ([] : List ContentItem)).2 = some ([] : Cache)
    ∧ ∃ r, (handle_message envW [] ([] : List ContentItem)).1
        = [OutMsg.ack, OutMsg.reply r] :=
  ⟨rfl, (C1_amended_one_reply_unless_dispatch_raises envW [] []).1 [] rfl⟩

end NotionAgent
